import Mathlib

/-!
Shallow embedding of the periodic-task scheduler backend
(periodically/backends.py) and verification of its specification claims.

Modelling conventions:
* Timestamps and durations are integers (`Int`); `now` is passed explicitly
  where the source calls `datetime.now()`.
* The execution-record store (`ExecutionRecord.objects`) is a `List Record`;
  a record is identified by its position in the list.  `filter(...)` is
  `List.filter`, `order_by(-start_time)[0]` is `argmaxOpen` (the open record
  with maximal `start_time`; on equal timestamps the database order is
  unspecified, we fix the later-inserted record).
* A raised Python exception is an `Option Err` component of the result,
  returned together with the state reached at the moment of the raise
  (Python does not roll back mutations made before an exception).
* The `extra` dictionary is kept as the data relevant to `complete_task`:
  its optional severity `level` entry and its message.  Logging calls touch
  no record-store state, but the argument binding of `Logger.log(**extra)`
  is modelled: `Logger.log(level, msg, ...)` requires a severity level, so
  a supplied extra with no level entry makes that call raise `TypeError`
  before any record is fetched.
* Severity levels follow the stdlib numeric values; `ERROR = 40`.
-/

namespace Periodically

/-- Numeric value of `logging.ERROR`. -/
def ERROR : Nat := 40

/-- The `extra` dictionary passed around completion calls: an optional
severity level entry and a message. -/
structure Extra where
  level : Option Nat
  msg : String
deriving Repr, DecidableEq

/-- One row of the execution-history table (`ExecutionRecord`). -/
structure Record where
  task_id : String
  schedule_id : Nat
  start_time : Int
  end_time : Option Int
  completed_successfully : Option Bool
deriving Repr, DecidableEq

/-- A task object: stable id, `is_blocking` flag (Python default `True`),
optional `timeout` override (absent attribute = `none`), and the outcome of
calling `run()` (normal return, or a raised exception with its message). -/
structure Task where
  task_id : String
  is_blocking : Bool := true
  timeout : Option Int := none
  runResult : Except String Unit := Except.ok ()

/-- Exceptions the backend can raise. -/
inductive Err where
  | indexError
  | notRegistered
  | attributeError
  | typeError
deriving Repr, DecidableEq

/-- The filter `task_id=tid, end_time=None` used by both `complete_task`
and `check_timeout`. -/
def isOpenFor (tid : String) (r : Record) : Bool :=
  r.task_id == tid && r.end_time == none

/-- Index and value of the open record for `tid` with maximal `start_time`:
the record selected by `filter(task_id=tid, end_time=None)
.order_by(-start_time)[0]`.  Ties go to the record later in the list. -/
def argmaxOpen (tid : String) : List Record → Option (Nat × Record)
  | [] => none
  | r :: rest =>
    match argmaxOpen tid rest with
    | none => if isOpenFor tid r then some (0, r) else none
    | some (j, r2) =>
      if isOpenFor tid r && r2.start_time < r.start_time then some (0, r)
      else some (j + 1, r2)

/-- The closed version of record `r`: `end_time` and
`completed_successfully` set, all other fields unchanged. -/
def closeRecord (r : Record) (now : Int) (success : Bool) : Record :=
  { r with end_time := some now, completed_successfully := some success }

/-- The `completed_successfully` flag computed by `complete_task`:
`True` when no `extra` is supplied, otherwise
`extra.get(level, ERROR) != ERROR`. -/
def completedSuccessfully (extra : Option Extra) : Bool :=
  match extra with
  | none => true
  | some e => e.level.getD ERROR != ERROR

/-- Whether the `self.logger.log(**extra)` call at the top of complete_task
binds its arguments.  `Logger.log(level, msg, ...)` requires the severity
level, so a supplied extra dictionary with no level entry makes that call
raise `TypeError` before any record is fetched; with no extra the call is
not made at all. -/
def logCallOk : Option Extra → Bool
  | none => true
  | some e => e.level.isSome

/-- BaseBackend.complete_task.  A supplied `extra` is first passed to
`Logger.log(**extra)`; when it lacks the severity level entry that call
raises `TypeError` with nothing mutated.  Otherwise the most recently
started open record for the task id is closed with the flag computed by
`completedSuccessfully`; when no open record exists, the subscript `[0]`
raises `IndexError` before any mutation. -/
def completeTask (now : Int) (tid : String) (extra : Option Extra)
    (s : List Record) : Option Err × List Record :=
  if logCallOk extra then
    match argmaxOpen tid s with
    | none => (some Err.indexError, s)
    | some (j, r) => (none, s.set j (closeRecord r now (completedSuccessfully extra)))
  else (some Err.typeError, s)

/-! ### Basic lemmas about `argmaxOpen` and `completeTask` -/

theorem argmaxOpen_eq_none_iff (tid : String) (s : List Record) :
    argmaxOpen tid s = none ↔ ∀ r ∈ s, isOpenFor tid r = false := by
  induction s with
  | nil => simp [argmaxOpen]
  | cons r rest ih =>
    simp only [argmaxOpen]
    cases h : argmaxOpen tid rest with
    | none =>
      rw [h] at ih
      by_cases hr : isOpenFor tid r = true
      · simp [hr]
      · simp only [Bool.not_eq_true] at hr
        simp [hr, List.mem_cons]
        intro a ha
        exact (ih.mp rfl) a ha
    | some p =>
      obtain ⟨j, r2⟩ := p
      constructor
      · intro hcontra
        by_cases hr : isOpenFor tid r && r2.start_time < r.start_time
        · simp [hr] at hcontra
        · simp [hr] at hcontra
      · intro hall
        exfalso
        have h2 : argmaxOpen tid rest ≠ none := by simp [h]
        rw [Ne, ih] at h2
        push_neg at h2
        obtain ⟨a, ha, hopen⟩ := h2
        have := hall a (List.mem_cons_of_mem _ ha)
        simp [this] at hopen

theorem argmaxOpen_some_get (tid : String) (s : List Record) (j : Nat)
    (r : Record) (h : argmaxOpen tid s = some (j, r)) :
    s.get? j = some r := by
  induction s generalizing j with
  | nil => simp [argmaxOpen] at h
  | cons a rest ih =>
    simp only [argmaxOpen] at h
    cases h2 : argmaxOpen tid rest with
    | none =>
      rw [h2] at h
      by_cases ha : isOpenFor tid a = true
      · rw [if_pos ha] at h
        obtain ⟨hj, hr⟩ : 0 = j ∧ a = r := by simpa using h
        subst hj; subst hr; rfl
      · rw [if_neg ha] at h
        simp at h
    | some p =>
      obtain ⟨j2, r2⟩ := p
      rw [h2] at h
      dsimp only at h
      by_cases hc : (isOpenFor tid a && decide (r2.start_time < a.start_time)) = true
      · rw [if_pos hc] at h
        obtain ⟨hj, hr⟩ : 0 = j ∧ a = r := by simpa using h
        subst hj; subst hr; rfl
      · rw [if_neg hc] at h
        obtain ⟨hj, hr⟩ : j2 + 1 = j ∧ r2 = r := by simpa using h
        subst hj; subst hr
        simpa using ih j2 h2

theorem argmaxOpen_some_open (tid : String) (s : List Record) (j : Nat)
    (r : Record) (h : argmaxOpen tid s = some (j, r)) :
    isOpenFor tid r = true := by
  induction s generalizing j with
  | nil => simp [argmaxOpen] at h
  | cons a rest ih =>
    simp only [argmaxOpen] at h
    cases h2 : argmaxOpen tid rest with
    | none =>
      rw [h2] at h
      by_cases ha : isOpenFor tid a = true
      · rw [if_pos ha] at h
        obtain ⟨hj, hr⟩ : 0 = j ∧ a = r := by simpa using h
        subst hr; exact ha
      · rw [if_neg ha] at h
        simp at h
    | some p =>
      obtain ⟨j2, r2⟩ := p
      rw [h2] at h
      dsimp only at h
      by_cases hc : (isOpenFor tid a && decide (r2.start_time < a.start_time)) = true
      · rw [if_pos hc] at h
        obtain ⟨hj, hr⟩ : 0 = j ∧ a = r := by simpa using h
        subst hr
        simp only [Bool.and_eq_true] at hc
        exact hc.1
      · rw [if_neg hc] at h
        obtain ⟨hj, hr⟩ : j2 + 1 = j ∧ r2 = r := by simpa using h
        subst hr
        exact ih j2 h2

theorem argmaxOpen_some_max (tid : String) (s : List Record) (j : Nat)
    (r : Record) (h : argmaxOpen tid s = some (j, r)) :
    ∀ r3 ∈ s, isOpenFor tid r3 = true → r3.start_time ≤ r.start_time := by
  induction s generalizing j r with
  | nil => simp [argmaxOpen] at h
  | cons a rest ih =>
    simp only [argmaxOpen] at h
    cases h2 : argmaxOpen tid rest with
    | none =>
      rw [h2] at h
      by_cases ha : isOpenFor tid a = true
      · rw [if_pos ha] at h
        obtain ⟨hj, hr⟩ : 0 = j ∧ a = r := by simpa using h
        subst hr
        intro r3 hmem hopen
        rcases List.mem_cons.mp hmem with hEq | hmem2
        · subst hEq; exact le_refl _
        · exact absurd ((argmaxOpen_eq_none_iff tid rest).mp h2 r3 hmem2)
            (by simp [hopen])
      · rw [if_neg ha] at h
        simp at h
    | some p =>
      obtain ⟨j2, r2⟩ := p
      rw [h2] at h
      dsimp only at h
      by_cases hc : (isOpenFor tid a && decide (r2.start_time < a.start_time)) = true
      · rw [if_pos hc] at h
        obtain ⟨hj, hr⟩ : 0 = j ∧ a = r := by simpa using h
        subst hr
        simp only [Bool.and_eq_true, decide_eq_true_eq] at hc
        intro r3 hmem hopen
        rcases List.mem_cons.mp hmem with hEq | hmem2
        · subst hEq; exact le_refl _
        · exact le_trans (ih j2 r2 h2 r3 hmem2 hopen) (le_of_lt hc.2)
      · rw [if_neg hc] at h
        obtain ⟨hj, hr⟩ : j2 + 1 = j ∧ r2 = r := by simpa using h
        subst hr
        intro r3 hmem hopen
        rcases List.mem_cons.mp hmem with hEq | hmem2
        · subst hEq
          simp only [Bool.and_eq_true, decide_eq_true_eq, not_and] at hc
          exact le_of_not_lt (hc hopen)
        · exact ih j2 r2 h2 r3 hmem2 hopen

theorem argmaxOpen_append_last (tid : String) (s : List Record)
    (rec : Record) (hopen : isOpenFor tid rec = true)
    (hmax : ∀ r ∈ s, isOpenFor tid r = true → r.start_time ≤ rec.start_time) :
    argmaxOpen tid (s ++ [rec]) = some (s.length, rec) := by
  induction s with
  | nil => simp [argmaxOpen, hopen]
  | cons a rest ih =>
    have ih2 := ih (fun r hr hop => hmax r (List.mem_cons_of_mem _ hr) hop)
    simp only [List.cons_append, argmaxOpen]
    have ih3 : argmaxOpen tid (rest.append [rec]) = some (rest.length, rec) := ih2
    rw [ih3]
    dsimp only
    by_cases hao : isOpenFor tid a = true
    · have hnlt : ¬(rec.start_time < a.start_time) :=
        not_lt_of_le (hmax a (List.mem_cons_self _ _) hao)
      simp [hao, hnlt]
    · simp [hao]

/-! ### List index helpers (wrappers around the getElem versions) -/

theorem get_set_ne (l : List Record) (a : Record) {m n : Nat} (h : m ≠ n) :
    (l.set m a).get? n = l.get? n := by
  rw [List.get?_eq_getElem?, List.get?_eq_getElem?, List.getElem?_set_ne h]

theorem get_set_self (l : List Record) (a : Record) {n : Nat}
    (h : n < l.length) : (l.set n a).get? n = some a := by
  rw [List.get?_eq_getElem?, List.getElem?_set_eq_of_lt a h]

theorem get_append_left (l l2 : List Record) {n : Nat} (h : n < l.length) :
    (l ++ l2).get? n = l.get? n := by
  rw [List.get?_eq_getElem?, List.get?_eq_getElem?, List.getElem?_append]
  simp [h]

theorem countP_set_decrement (p : Record → Bool) (s : List Record) (j : Nat)
    (r r2 : Record) (hget : s.get? j = some r) (hr : p r = true)
    (hr2 : p r2 = false) : (s.set j r2).countP p + 1 = s.countP p := by
  induction s generalizing j with
  | nil => simp at hget
  | cons a rest ih =>
    cases j with
    | zero =>
      have ha : a = r := by simpa using hget
      subst ha
      simp [List.countP_cons, hr, hr2]
    | succ n =>
      have hget2 : rest.get? n = some r := by simpa using hget
      have := ih n hget2
      simp only [List.set, List.countP_cons]
      omega

/-- Number of open records for a task id: the length of the queryset
`filter(task_id=tid, end_time=None)`. -/
def openCount (tid : String) (s : List Record) : Nat :=
  s.countP (isOpenFor tid)

theorem openCount_eq_zero_iff (tid : String) (s : List Record) :
    openCount tid s = 0 ↔ ∀ r ∈ s, isOpenFor tid r = false := by
  rw [openCount, List.countP_eq_zero]
  constructor
  · intro h r hr
    simpa using h r hr
  · intro h r hr
    simp [h r hr]

theorem completeTask_of_bad_extra (now : Int) (tid : String)
    (extra : Option Extra) (s : List Record)
    (hlog : logCallOk extra = false) :
    completeTask now tid extra s = (some Err.typeError, s) := by
  simp [completeTask, hlog]

theorem completeTask_of_no_open (now : Int) (tid : String)
    (extra : Option Extra) (s : List Record)
    (hlog : logCallOk extra = true)
    (h : ∀ r ∈ s, isOpenFor tid r = false) :
    completeTask now tid extra s = (some Err.indexError, s) := by
  have hm := (argmaxOpen_eq_none_iff tid s).mpr h
  simp [completeTask, hlog, hm]

theorem completeTask_err_none (now : Int) (tid : String)
    (extra : Option Extra) (s : List Record)
    (hlog : logCallOk extra = true) (h : openCount tid s ≠ 0) :
    (completeTask now tid extra s).1 = none := by
  cases hm : argmaxOpen tid s with
  | none =>
    exact absurd ((openCount_eq_zero_iff tid s).mpr
      ((argmaxOpen_eq_none_iff tid s).mp hm)) h
  | some p =>
    obtain ⟨j, r⟩ := p
    simp [completeTask, hlog, hm]

theorem completeTask_length (now : Int) (tid : String) (extra : Option Extra)
    (s : List Record) : (completeTask now tid extra s).2.length = s.length := by
  cases hlog : logCallOk extra with
  | false => simp [completeTask, hlog]
  | true =>
    cases hm : argmaxOpen tid s with
    | none => simp [completeTask, hlog, hm]
    | some p =>
      obtain ⟨j, r⟩ := p
      simp [completeTask, hlog, hm]

theorem isOpenFor_closeRecord (tid : String) (r : Record) (now : Int)
    (b : Bool) : isOpenFor tid (closeRecord r now b) = false := by
  simp [isOpenFor, closeRecord]

theorem completeTask_openCount (now : Int) (tid : String)
    (extra : Option Extra) (s : List Record)
    (h : (completeTask now tid extra s).1 = none) :
    openCount tid (completeTask now tid extra s).2 + 1 = openCount tid s := by
  cases hlog : logCallOk extra with
  | false =>
    rw [completeTask_of_bad_extra now tid extra s hlog] at h
    exact Option.noConfusion h
  | true =>
    cases hm : argmaxOpen tid s with
    | none => simp [completeTask, hlog, hm] at h
    | some p =>
      obtain ⟨j, r⟩ := p
      have heq : completeTask now tid extra s =
          (none, s.set j (closeRecord r now (completedSuccessfully extra))) := by
        simp [completeTask, hlog, hm]
      rw [heq]
      exact countP_set_decrement _ s j r _ (argmaxOpen_some_get _ _ _ _ hm)
        (argmaxOpen_some_open _ _ _ _ hm) (isOpenFor_closeRecord _ _ _ _)

theorem completeTask_preserves_closed (now : Int) (tid : String)
    (extra : Option Extra) (s : List Record) (i : Nat) (r : Record)
    (hget : s.get? i = some r) (hclosed : r.end_time ≠ none) :
    (completeTask now tid extra s).2.get? i = some r := by
  cases hlog : logCallOk extra with
  | false =>
    rw [completeTask_of_bad_extra now tid extra s hlog]
    exact hget
  | true =>
    cases hm : argmaxOpen tid s with
    | none => simpa [completeTask, hlog, hm] using hget
    | some p =>
      obtain ⟨j, r2⟩ := p
      have hop := argmaxOpen_some_open tid s j r2 hm
      have hij : j ≠ i := by
        intro hEq
        subst hEq
        have : r2 = r := by
          have := argmaxOpen_some_get tid s j r2 hm
          rw [this] at hget
          simpa using hget
        subst this
        simp only [isOpenFor, Bool.and_eq_true, beq_iff_eq] at hop
        exact hclosed (by simpa using hop.2)
      have heq : completeTask now tid extra s =
          (none, s.set j (closeRecord r2 now (completedSuccessfully extra))) := by
        simp [completeTask, hlog, hm]
      rw [heq]
      rw [get_set_ne _ _ hij]
      exact hget

/-! ### Timeout monitor (BaseBackend.check_timeout) -/

/-- The extra dictionary synthesized for a timed-out record: severity
`ERROR` and a timed-out message. -/
def timeoutExtra (running : Int) : Extra :=
  ⟨some ERROR, "Task timed out after " ++ toString running ++ "."⟩

/-- Effective timeout of a task: its `timeout` attribute when present,
`DEFAULT_TIMEOUT` from the settings otherwise. -/
def effectiveTimeout (defaultTimeout : Int) (task : Task) : Int :=
  task.timeout.getD defaultTimeout

/-- Loop of `check_timeout` over the snapshot of open records returned by
the queryset; a raised exception aborts the loop carrying the state reached
so far. -/
def checkTimeoutAux (now defaultTimeout : Int) (task : Task) :
    List Record → List Record → Option Err × List Record
  | [], s => (none, s)
  | r :: rest, s =>
    if now - r.start_time > effectiveTimeout defaultTimeout task then
      let p := completeTask now task.task_id
        (some (timeoutExtra (now - r.start_time))) s
      match p.1 with
      | some e => (some e, p.2)
      | none => checkTimeoutAux now defaultTimeout task rest p.2
    else checkTimeoutAux now defaultTimeout task rest s

/-- BaseBackend.check_timeout: iterate over the open records of the task
and call `complete_task` for each whose running time exceeds the effective
timeout. -/
def checkTimeout (now defaultTimeout : Int) (task : Task)
    (s : List Record) : Option Err × List Record :=
  checkTimeoutAux now defaultTimeout task (s.filter (isOpenFor task.task_id)) s

/-! ### Run lifecycle (BaseBackend.run_task) -/

/-- BaseBackend.run_task: create the execution record, invoke the task,
then close the record at once when a failure was captured or the task is
blocking. -/
def runTask (now : Int) (task : Task) (schedHash : Nat) (s : List Record) :
    Option Err × List Record :=
  let log : Record :=
    { task_id := task.task_id, schedule_id := schedHash,
      start_time := now, end_time := none, completed_successfully := none }
  let s1 := s ++ [log]
  let extra : Option Extra :=
    match task.runResult with
    | Except.ok _ => none
    | Except.error msg => some ⟨some ERROR, msg⟩
  if extra.isSome || task.is_blocking then completeTask now task.task_id extra s1
  else (none, s1)

/-! ### Task registry -/

/-- Registry entry (TaskInfo): the constructor creates an empty schedule
set; the `task` attribute is only assigned by `schedule_task`, so it is
optional here. -/
structure TaskInfo where
  task : Option Task
  schedules : List Nat

/-- A fresh `TaskInfo()` as produced by the defaultdict factory. -/
def TaskInfo.mkNew : TaskInfo := ⟨none, []⟩

/-- The registry `_tasks`: a defaultdict from task id to TaskInfo,
represented as an insertion-ordered association list. -/
abbrev Reg := List (String × TaskInfo)

/-- Membership test `task_id in self._tasks` and dictionary lookup;
performs no insertion. -/
def lookupInfo (tid : String) : Reg → Option TaskInfo
  | [] => none
  | p :: rest => if p.1 == tid then some p.2 else lookupInfo tid rest

/-- Subscript access `self._tasks[task_id]` on the defaultdict: returns
the entry, inserting a fresh TaskInfo when the key is absent. -/
def ddGet (tid : String) (reg : Reg) : TaskInfo × Reg :=
  match lookupInfo tid reg with
  | some info => (info, reg)
  | none => (TaskInfo.mkNew, reg ++ [(tid, TaskInfo.mkNew)])

/-- In-place update of the entry of a present key. -/
def setInfo (tid : String) (info : TaskInfo) (reg : Reg) : Reg :=
  reg.map (fun p => if p.1 == tid then (p.1, info) else p)

/-- Python `set.add` on the schedule set: a no-op when the element is
already present. -/
def addSchedule (schedHash : Nat) (l : List Nat) : List Nat :=
  if schedHash ∈ l then l else l ++ [schedHash]

/-- BaseBackend.schedule_task: assign the `task` attribute of the
defaultdict entry, add the schedule to its set, and for a non-blocking
task connect the completion receiver with `dispatch_uid = task_id`
(idempotent, so repeat registration does not accumulate handlers). -/
def scheduleTask (task : Task) (schedHash : Nat) (reg : Reg)
    (subs : List String) : Reg × List String :=
  let tid := task.task_id
  let pair := ddGet tid reg
  let info2 : TaskInfo :=
    { task := some task, schedules := addSchedule schedHash pair.1.schedules }
  let reg2 := setInfo tid info2 pair.2
  let subs2 :=
    if task.is_blocking then subs
    else if tid ∈ subs then subs else subs ++ [tid]
  (reg2, subs2)

/-- Loop of `get_task_info_list` over an explicit task collection: the
membership guard raises for an unregistered id, otherwise the defaultdict
subscript fetches the entry. -/
def getTaskInfoListAux : List Task → Reg → List TaskInfo →
    Option Err × List TaskInfo × Reg
  | [], reg, acc => (none, acc, reg)
  | t :: rest, reg, acc =>
    match lookupInfo t.task_id reg with
    | none => (some Err.notRegistered, acc, reg)
    | some _ =>
      let pair := ddGet t.task_id reg
      getTaskInfoListAux rest pair.2 (acc ++ [pair.1])

/-- BaseBackend.get_task_info_list: all entries when called without an
argument, the matching entries otherwise. -/
def getTaskInfoList (tasks : Option (List Task)) (reg : Reg) :
    Option Err × List TaskInfo × Reg :=
  match tasks with
  | none => (none, reg.map Prod.snd, reg)
  | some ts => getTaskInfoListAux ts reg []

/-! ### Scheduler (BaseBackend.run_scheduled_tasks) -/

/-- Inner loop of run_scheduled_tasks over the schedule set of one task:
run the task once for every schedule whose next run time is at or before
now. -/
def scheduleLoop (now : Int) (getNextRunTime : Nat → Task → Int)
    (task : Task) : List Nat → List Record → Option Err × List Record
  | [], s => (none, s)
  | sch :: rest, s =>
    if getNextRunTime sch task ≤ now then
      let p := runTask now task sch s
      match p.1 with
      | some e => (some e, p.2)
      | none => scheduleLoop now getNextRunTime task rest p.2
    else scheduleLoop now getNextRunTime task rest s

/-- Body of run_scheduled_tasks for one TaskInfo: the timeout check,
followed by the due-schedule loop. -/
def processTask (now defaultTimeout : Int)
    (getNextRunTime : Nat → Task → Int) (task : Task)
    (schedules : List Nat) (s : List Record) : Option Err × List Record :=
  let p := checkTimeout now defaultTimeout task s
  match p.1 with
  | some e => (some e, p.2)
  | none => scheduleLoop now getNextRunTime task schedules p.2

/-- Outer loop of run_scheduled_tasks over the selected TaskInfos. -/
def runScheduledTasksAux (now defaultTimeout : Int)
    (getNextRunTime : Nat → Task → Int) :
    List TaskInfo → List Record → Option Err × List Record
  | [], s => (none, s)
  | info :: rest, s =>
    match info.task with
    | none => (some Err.attributeError, s)
    | some task =>
      let p := processTask now defaultTimeout getNextRunTime task
        info.schedules s
      match p.1 with
      | some e => (some e, p.2)
      | none => runScheduledTasksAux now defaultTimeout getNextRunTime rest p.2

/-- BaseBackend.run_scheduled_tasks: select TaskInfos via
get_task_info_list, then check timeouts and run due schedules for each. -/
def runScheduledTasks (now defaultTimeout : Int)
    (getNextRunTime : Nat → Task → Int) (tasks : Option (List Task))
    (reg : Reg) (s : List Record) : Option Err × List Record :=
  let g := getTaskInfoList tasks reg
  match g.1 with
  | some e => (some e, s)
  | none => runScheduledTasksAux now defaultTimeout getNextRunTime g.2.1 s

/-! ### Shared state and the completion receiver -/

/-- The state shared by the run engine, the completion receiver and the
timeout monitor: the record store plus the set of task ids carrying an
active task_complete subscription (the dispatch_uid keys). -/
structure Sys where
  records : List Record
  subs : List String
deriving Repr, DecidableEq

/-- The closure installed by _create_receiver: on receipt of a completion
signal it first disconnects its own subscription (dispatch_uid = task_id)
and then calls complete_task. -/
def receiver (now : Int) (task : Task) (extra : Option Extra) (sys : Sys) :
    Option Err × Sys :=
  let subs1 := sys.subs.erase task.task_id
  let p := completeTask now task.task_id extra sys.records
  (p.1, ⟨p.2, subs1⟩)

/-- Modelled from the claim wording, for comparison with `receiver`: a
handler that first invokes complete_task and only afterwards — hence not
when complete_task raises — removes its own subscription. -/
def receiverClaimed (now : Int) (task : Task) (extra : Option Extra)
    (sys : Sys) : Option Err × Sys :=
  let p := completeTask now task.task_id extra sys.records
  match p.1 with
  | some e => (some e, ⟨p.2, sys.subs⟩)
  | none => (none, ⟨p.2, sys.subs.erase task.task_id⟩)

/-- The operations that can touch the record store after scheduling time:
a run, an explicit completion, a timeout sweep for a task, and the
completion-notification receiver. -/
inductive Op where
  | runT (task : Task) (schedHash : Nat)
  | completeT (task : Task) (extra : Option Extra)
  | checkT (task : Task)
  | receiveT (task : Task) (extra : Option Extra)

/-- One invocation of an operation against the shared state. -/
def step (now defaultTimeout : Int) : Op → Sys → Option Err × Sys
  | Op.runT task sch, sys =>
    let p := runTask now task sch sys.records
    (p.1, ⟨p.2, sys.subs⟩)
  | Op.completeT task extra, sys =>
    let p := completeTask now task.task_id extra sys.records
    (p.1, ⟨p.2, sys.subs⟩)
  | Op.checkT task, sys =>
    let p := checkTimeout now defaultTimeout task sys.records
    (p.1, ⟨p.2, sys.subs⟩)
  | Op.receiveT task extra, sys => receiver now task extra sys

/-! ### Further helper lemmas -/

theorem completeTask_of_argmax (now : Int) (tid : String)
    (extra : Option Extra) (s : List Record) (j : Nat) (r : Record)
    (hlog : logCallOk extra = true)
    (h : argmaxOpen tid s = some (j, r)) :
    completeTask now tid extra s =
      (none, s.set j (closeRecord r now (completedSuccessfully extra))) := by
  simp [completeTask, hlog, h]

theorem completeTask_get_closed (now : Int) (tid : String)
    (extra : Option Extra) (s : List Record) (j : Nat) (r : Record)
    (hlog : logCallOk extra = true)
    (h : argmaxOpen tid s = some (j, r)) :
    (completeTask now tid extra s).2.get? j =
      some (closeRecord r now (completedSuccessfully extra)) := by
  rw [completeTask_of_argmax now tid extra s j r hlog h]
  have hlt : j < s.length := by
    rcases List.get?_eq_some.mp (argmaxOpen_some_get tid s j r h) with ⟨hlt, _⟩
    exact hlt
  exact get_set_self _ _ hlt

theorem set_append_last (l : List Record) (a b : Record) :
    (l ++ [a]).set l.length b = l ++ [b] := by
  simp [List.set_append]

theorem lookupInfo_setInfo (tid : String) (info2 : TaskInfo) (reg : Reg)
    (h : (lookupInfo tid reg).isSome = true) :
    lookupInfo tid (setInfo tid info2 reg) = some info2 := by
  induction reg with
  | nil => simp [lookupInfo] at h
  | cons p rest ih =>
    by_cases hp : (p.1 == tid) = true
    · simp [setInfo, lookupInfo, hp]
    · have hp2 : (p.1 == tid) = false := by
        cases hb : (p.1 == tid) with
        | false => rfl
        | true => exact absurd hb hp
      simp only [lookupInfo, hp2, Bool.false_eq_true, if_false] at h
      simp only [setInfo, List.map_cons, hp2, Bool.false_eq_true, if_false,
        lookupInfo]
      exact ih h

theorem getTaskInfoListAux_unreg (ts : List Task) (reg : Reg)
    (acc : List TaskInfo) (t : Task) (hmem : t ∈ ts)
    (hunreg : lookupInfo t.task_id reg = none) :
    (getTaskInfoListAux ts reg acc).1 = some Err.notRegistered ∧
    (getTaskInfoListAux ts reg acc).2.2 = reg := by
  induction ts generalizing acc with
  | nil => simp at hmem
  | cons a rest ih =>
    rcases List.mem_cons.mp hmem with hEq | hmem2
    · subst hEq
      simp [getTaskInfoListAux, hunreg]
    · cases hl : lookupInfo a.task_id reg with
      | none => simp [getTaskInfoListAux, hl]
      | some info =>
        have hdd : ddGet a.task_id reg = (info, reg) := by simp [ddGet, hl]
        simp only [getTaskInfoListAux, hl, hdd]
        exact ih (acc ++ [info]) hmem2

/-! ### Claim C1 -/

/-- C1 as stated is false: invoking `complete_task` for a task with no open
execution record does not resolve silently — the queryset subscript raises
`IndexError`.  Concretely, on a store holding only one already-closed record
for the task, the call raises. -/
theorem complete_task_noop_cex :
    (([(⟨"t", 1, 0, some 1, some true⟩ : Record)].all
        (fun r => !(isOpenFor "t" r))) = true) ∧
    (completeTask 2 "t" none [⟨"t", 1, 0, some 1, some true⟩]).1 ≠ none := by
  decide

/-- C1 (amended): if `complete_task` is invoked for a task that currently
has no open execution record, the call raises rather than resolving
silently — `TypeError` at the logging call when a supplied extra lacks a
severity level entry, `IndexError` from the empty-queryset subscript
otherwise — and it performs no mutation: every already-closed record is
left exactly as it was. -/
theorem complete_task_no_open_raises (now : Int) (tid : String)
    (extra : Option Extra) (s : List Record)
    (h : ∀ r ∈ s, isOpenFor tid r = false) :
    (completeTask now tid extra s).1 =
      some (if logCallOk extra then Err.indexError else Err.typeError) ∧
    (completeTask now tid extra s).2 = s := by
  cases hlog : logCallOk extra with
  | true =>
    rw [completeTask_of_no_open now tid extra s hlog h]
    simp [hlog]
  | false =>
    rw [completeTask_of_bad_extra now tid extra s hlog]
    simp [hlog]

/-- Witness for C1 at a concrete closed-record store. -/
theorem complete_task_no_open_raises_witness :
    (completeTask 2 "t" none [⟨"t", 1, 0, some 1, some true⟩]).1 =
      some Err.indexError ∧
    (completeTask 2 "t" none [⟨"t", 1, 0, some 1, some true⟩]).2 =
      [⟨"t", 1, 0, some 1, some true⟩] := by
  simpa [logCallOk] using complete_task_no_open_raises 2 "t" none _
    (by decide)

/-! ### Claim C3 -/

/-- C3 as stated is false: the source tests `extra.get(level, ERROR) !=
ERROR`, not `< ERROR`.  A supplied severity of 50 (`CRITICAL`) is not below
error level, yet the record is closed as completed successfully. -/
theorem complete_task_success_cex :
    ¬(50 < ERROR) ∧
    (completeTask 3 "t" (some ⟨some 50, "critical failure"⟩)
        [⟨"t", 1, 0, none, none⟩]).2 =
      [⟨"t", 1, 0, some 3, some true⟩] := by
  decide

/-- C3 (amended): when the supplied extra, if any, carries a severity
level entry — so the logging call binds; a level-free extra instead raises
`TypeError` before any record access — `complete_task` closes the located
record (the most recently started open one) marking it completed
successfully if and only if no `extra` is supplied or the supplied
severity level differs from the error level (40); only an
exactly-error-level severity closes it as a failure. -/
theorem complete_task_success_iff (now : Int) (tid : String)
    (extra : Option Extra) (s : List Record) (j : Nat) (r : Record)
    (hlog : logCallOk extra = true)
    (h : argmaxOpen tid s = some (j, r)) :
    (completeTask now tid extra s).2.get? j =
      some (closeRecord r now (completedSuccessfully extra)) ∧
    (completedSuccessfully extra = true ↔
      (extra = none ∨ ∃ e, extra = some e ∧ e.level.getD ERROR ≠ ERROR)) := by
  refine ⟨completeTask_get_closed now tid extra s j r hlog h, ?_⟩
  cases extra with
  | none => simp [completedSuccessfully]
  | some e =>
    simp [completedSuccessfully, bne_iff_ne]

/-- Witness for C3 on a concrete store with one open record. -/
theorem complete_task_success_iff_witness :
    (completeTask 3 "t" none [⟨"t", 1, 0, none, none⟩]).2.get? 0 =
      some (closeRecord ⟨"t", 1, 0, none, none⟩ 3
        (completedSuccessfully none)) ∧
    (completedSuccessfully (none : Option Extra) = true ↔
      ((none : Option Extra) = none ∨
        ∃ e, (none : Option Extra) = some e ∧ e.level.getD ERROR ≠ ERROR)) :=
  complete_task_success_iff 3 "t" none [⟨"t", 1, 0, none, none⟩] 0
    ⟨"t", 1, 0, none, none⟩ rfl (by decide)

/-! ### Claim C10 -/

/-- C10 as stated is false: a supplied extra dictionary with no severity
level entry does not get the record closed as a failure — the
`Logger.log(**extra)` call at the top of complete_task raises `TypeError`
(its required level argument is missing) before any record is fetched.
Concretely, with one open record in the store the call raises and the
record stays open. -/
theorem complete_task_missing_level_cex :
    completeTask 3 "t" (some ⟨none, "no level"⟩)
        [⟨"t", 1, 0, none, none⟩] =
      (some Err.typeError, [⟨"t", 1, 0, none, none⟩]) ∧
    isOpenFor "t" ⟨"t", 1, 0, none, none⟩ = true := by
  decide

/-- C10 (amended): if `complete_task` is called with a non-null extra
dictionary that contains no severity level entry, the call raises
`TypeError` at the logging call before any record is fetched: the store is
returned unchanged, so no record is closed — neither as a failure nor as a
success. -/
theorem complete_task_missing_level_raises (now : Int) (tid : String)
    (e : Extra) (s : List Record) (hlev : e.level = none) :
    completeTask now tid (some e) s = (some Err.typeError, s) := by
  apply completeTask_of_bad_extra
  simp [logCallOk, hlev]

/-- Witness for C10 with a concrete level-free extra dictionary. -/
theorem complete_task_missing_level_raises_witness :
    completeTask 3 "t" (some ⟨none, "no level"⟩)
        [⟨"t", 1, 0, none, none⟩] =
      (some Err.typeError, [⟨"t", 1, 0, none, none⟩]) :=
  complete_task_missing_level_raises 3 "t" ⟨none, "no level"⟩
    [⟨"t", 1, 0, none, none⟩] rfl

/-! ### Claim C9 -/

/-- C9 as stated is false: the installed receiver disconnects its
subscription first and only then invokes complete_task, observable when
complete_task raises — the subscription is already gone, while a
complete-first handler would have kept it. -/
theorem receiver_order_cex :
    receiver 5 ⟨"t", true, some 5, Except.ok ()⟩ none ⟨[], ["t"]⟩ ≠
      receiverClaimed 5 ⟨"t", true, some 5, Except.ok ()⟩ none
        ⟨[], ["t"]⟩ := by
  decide

/-- C9 (amended): on receipt of a completion notification the registered
handler removes its own subscription registration for the task id first,
and then invokes the same close-execution logic (complete_task) used by the
synchronous path; the record store is updated exactly as complete_task
updates it, any exception of complete_task propagates, and the
subscription is removed even in that case. -/
theorem receiver_spec (now : Int) (task : Task) (extra : Option Extra)
    (sys : Sys) :
    (receiver now task extra sys).2.records =
      (completeTask now task.task_id extra sys.records).2 ∧
    (receiver now task extra sys).2.subs = sys.subs.erase task.task_id ∧
    (receiver now task extra sys).1 =
      (completeTask now task.task_id extra sys.records).1 := by
  refine ⟨rfl, rfl, rfl⟩

/-! ### Claim C6 -/

/-- C6: calling schedule_task again for an id already present in the
registry keeps the existing entry and merges the new schedule into its
schedule set — every previously held schedule is retained — and re-adding a
schedule already in the set leaves the set unchanged (set semantics). -/
theorem schedule_task_merges (task : Task) (schedHash : Nat) (reg : Reg)
    (subs : List String) (info : TaskInfo)
    (h : lookupInfo task.task_id reg = some info) :
    lookupInfo task.task_id (scheduleTask task schedHash reg subs).1 =
      some ⟨some task, addSchedule schedHash info.schedules⟩ ∧
    (∀ x ∈ info.schedules, x ∈ addSchedule schedHash info.schedules) ∧
    (schedHash ∈ info.schedules →
      addSchedule schedHash info.schedules = info.schedules) := by
  have hdd : ddGet task.task_id reg = (info, reg) := by simp [ddGet, h]
  refine ⟨?_, ?_, ?_⟩
  · simp only [scheduleTask, hdd]
    exact lookupInfo_setInfo _ _ _ (by simp [h])
  · intro x hx
    by_cases hmem : schedHash ∈ info.schedules
    · simpa [addSchedule, hmem] using hx
    · simp [addSchedule, hmem, List.mem_append]
      exact Or.inl hx
  · intro hmem
    simp [addSchedule, hmem]

/-- Witness for C6 at a concrete one-entry registry. -/
theorem schedule_task_merges_witness :
    lookupInfo "t" (scheduleTask ⟨"t", true, none, Except.ok ()⟩ 3
        [("t", ⟨some ⟨"t", true, none, Except.ok ()⟩, [7]⟩)] []).1 =
      some ⟨some ⟨"t", true, none, Except.ok ()⟩, addSchedule 3 [7]⟩ ∧
    (∀ x ∈ [7], x ∈ addSchedule 3 [7]) ∧
    (3 ∈ [7] → addSchedule 3 [7] = [7]) :=
  schedule_task_merges ⟨"t", true, none, Except.ok ()⟩ 3
    [("t", ⟨some ⟨"t", true, none, Except.ok ()⟩, [7]⟩)] []
    ⟨some ⟨"t", true, none, Except.ok ()⟩, [7]⟩ rfl

/-! ### Claim C5 -/

/-- C5: get_task_info_list called with an explicit collection containing a
task whose id is not in the registry fails with the not-registered error
and leaves the registry exactly as it was; called with no argument it
returns every registry entry. -/
theorem get_task_info_list_spec (ts : List Task) (reg : Reg) (t : Task)
    (hmem : t ∈ ts) (hunreg : lookupInfo t.task_id reg = none) :
    (getTaskInfoList (some ts) reg).1 = some Err.notRegistered ∧
    (getTaskInfoList (some ts) reg).2.2 = reg ∧
    (getTaskInfoList none reg).2.1 = reg.map Prod.snd := by
  have := getTaskInfoListAux_unreg ts reg [] t hmem hunreg
  exact ⟨this.1, this.2, rfl⟩

/-- Witness for C5: a one-task registry queried for an unregistered id. -/
theorem get_task_info_list_spec_witness :
    (getTaskInfoList (some [⟨"u", true, none, Except.ok ()⟩])
        [("t", ⟨some ⟨"t", true, none, Except.ok ()⟩, [7]⟩)]).1 =
      some Err.notRegistered ∧
    (getTaskInfoList (some [⟨"u", true, none, Except.ok ()⟩])
        [("t", ⟨some ⟨"t", true, none, Except.ok ()⟩, [7]⟩)]).2.2 =
      [("t", ⟨some ⟨"t", true, none, Except.ok ()⟩, [7]⟩)] ∧
    (getTaskInfoList none
        [("t", ⟨some ⟨"t", true, none, Except.ok ()⟩, [7]⟩)]).2.1 =
      [("t", (⟨some ⟨"t", true, none, Except.ok ()⟩, [7]⟩ : TaskInfo))].map
        Prod.snd :=
  get_task_info_list_spec [⟨"u", true, none, Except.ok ()⟩]
    [("t", ⟨some ⟨"t", true, none, Except.ok ()⟩, [7]⟩)]
    ⟨"u", true, none, Except.ok ()⟩ (List.mem_singleton.mpr rfl) rfl

/-! ### Claim C4 -/

/-- C4: run_task never lets a failure of task.run() escape (the error
component of the result is always none) and appends exactly one new record;
that record is closed at once — with success exactly when no failure was
captured — if and only if a failure occurred or the task is blocking, and
is left open when the task is non-blocking and no failure occurred.  The
hypothesis states that no open record in the store started in the future
(records are created at their start time). -/
theorem run_task_spec (now : Int) (task : Task) (schedHash : Nat)
    (s : List Record)
    (h : ∀ r ∈ s, isOpenFor task.task_id r = true → r.start_time ≤ now) :
    runTask now task schedHash s =
      (none, s ++
        [{ task_id := task.task_id, schedule_id := schedHash,
           start_time := now,
           end_time :=
             if task.runResult.isOk && !task.is_blocking then none
             else some now,
           completed_successfully :=
             if task.runResult.isOk && !task.is_blocking then none
             else some task.runResult.isOk }]) := by
  have hargmax := argmaxOpen_append_last task.task_id s
      ⟨task.task_id, schedHash, now, none, none⟩ (by simp [isOpenFor]) h
  cases hrun : task.runResult with
  | error msg =>
    have hcomp := completeTask_of_argmax now task.task_id
      (some ⟨some ERROR, msg⟩) _ _ _ (by rfl) hargmax
    simp only [runTask, hrun, Option.isSome_some, Bool.true_or, if_true]
    rw [hcomp, set_append_last]
    simp [closeRecord, completedSuccessfully, Except.isOk, Except.toBool, hrun]
  | ok u =>
    cases hbl : task.is_blocking with
    | true =>
      have hcomp := completeTask_of_argmax now task.task_id none _ _ _
        (by rfl) hargmax
      simp only [runTask, hrun, hbl, Option.isSome_none, Bool.false_or,
        if_true]
      rw [hcomp, set_append_last]
      simp [closeRecord, completedSuccessfully, Except.isOk, Except.toBool]
    | false =>
      simp only [runTask, hrun, hbl, Option.isSome_none, Bool.false_or,
        Bool.false_eq_true, if_false]
      simp [Except.isOk, Except.toBool]

/-- Witness for C4: a blocking, succeeding task on an empty store. -/
theorem run_task_spec_witness :
    runTask 7 ⟨"t", true, none, Except.ok ()⟩ 9 [] =
      (none, [⟨"t", 9, 7, some 7, some true⟩]) := by
  simpa using run_task_spec 7 ⟨"t", true, none, Except.ok ()⟩ 9 []
    (by simp)

/-! ### Claim C8 -/

theorem runTask_preserves_closed (now : Int) (task : Task)
    (schedHash : Nat) (s : List Record) (i : Nat) (r : Record)
    (hget : s.get? i = some r) (hclosed : r.end_time ≠ none) :
    (runTask now task schedHash s).2.get? i = some r := by
  obtain ⟨hlt, -⟩ := List.get?_eq_some.mp hget
  have hget2 : (s ++ [(⟨task.task_id, schedHash, now, none,
      none⟩ : Record)]).get? i = some r := by
    rw [get_append_left _ _ hlt]; exact hget
  cases hrun : task.runResult with
  | error msg =>
    simp only [runTask, hrun, Option.isSome_some, Bool.true_or, if_true]
    exact completeTask_preserves_closed _ _ _ _ _ _ hget2 hclosed
  | ok u =>
    cases hbl : task.is_blocking with
    | true =>
      simp only [runTask, hrun, hbl, Option.isSome_none, Bool.false_or,
        if_true]
      exact completeTask_preserves_closed _ _ _ _ _ _ hget2 hclosed
    | false =>
      simp only [runTask, hrun, hbl, Option.isSome_none, Bool.false_or,
        Bool.false_eq_true, if_false]
      exact hget2

theorem checkTimeoutAux_preserves_closed (now dT : Int) (task : Task)
    (snap : List Record) (s : List Record) (i : Nat) (r : Record)
    (hget : s.get? i = some r) (hclosed : r.end_time ≠ none) :
    (checkTimeoutAux now dT task snap s).2.get? i = some r := by
  induction snap generalizing s with
  | nil => simpa [checkTimeoutAux] using hget
  | cons a rest ih =>
    simp only [checkTimeoutAux]
    by_cases hc : now - a.start_time > effectiveTimeout dT task
    · rw [if_pos hc]
      have hpres := completeTask_preserves_closed now task.task_id
        (some (timeoutExtra (now - a.start_time))) s i r hget hclosed
      cases he : (completeTask now task.task_id
          (some (timeoutExtra (now - a.start_time))) s).1 with
      | some e =>
        simp only [he]
        exact hpres
      | none =>
        simp only [he]
        exact ih _ hpres
    · rw [if_neg hc]
      exact ih _ hget

/-- C8: once an execution record is closed (its end_time is set), none of
the operations — run_task, complete_task, check_timeout, or the
completion-notification receiver — ever mutates it again: the record is
still present, unchanged, at its position after any step. -/
theorem closed_record_never_mutated (now dT : Int) (op : Op) (sys : Sys)
    (i : Nat) (r : Record) (hget : sys.records.get? i = some r)
    (hclosed : r.end_time ≠ none) :
    (step now dT op sys).2.records.get? i = some r := by
  cases op with
  | runT task sch =>
    exact runTask_preserves_closed now task sch sys.records i r hget hclosed
  | completeT task extra =>
    exact completeTask_preserves_closed now task.task_id extra sys.records
      i r hget hclosed
  | checkT task =>
    exact checkTimeoutAux_preserves_closed now dT task _ sys.records i r
      hget hclosed
  | receiveT task extra =>
    exact completeTask_preserves_closed now task.task_id extra sys.records
      i r hget hclosed

/-- Witness for C8: a completion call cannot touch a closed record. -/
theorem closed_record_never_mutated_witness :
    (step 5 99 (Op.completeT ⟨"t", true, none, Except.ok ()⟩ none)
        ⟨[⟨"t", 1, 0, some 1, some true⟩], []⟩).2.records.get? 0 =
      some ⟨"t", 1, 0, some 1, some true⟩ :=
  closed_record_never_mutated 5 99 _ _ 0 _ rfl (by simp)

/-! ### Claim C2 -/

theorem argmaxOpen_of_filter_singleton (tid : String) (s : List Record)
    (r : Record) (h : s.filter (isOpenFor tid) = [r]) :
    ∃ j, s.get? j = some r ∧ argmaxOpen tid s = some (j, r) := by
  induction s with
  | nil => simp at h
  | cons a rest ih =>
    by_cases ha : isOpenFor tid a = true
    · rw [List.filter_cons_of_pos ha] at h
      obtain ⟨haR, hrest⟩ : a = r ∧ rest.filter (isOpenFor tid) = [] := by
        simpa using h
      subst haR
      have hnone : argmaxOpen tid rest = none :=
        (argmaxOpen_eq_none_iff tid rest).mpr (fun r2 hr2 => by
          have := List.filter_eq_nil.mp hrest r2 hr2
          simpa using this)
      exact ⟨0, rfl, by simp [argmaxOpen, hnone, ha]⟩
    · rw [List.filter_cons_of_neg (by simpa using ha)] at h
      obtain ⟨j, hget, hmax⟩ := ih h
      refine ⟨j + 1, by simpa using hget, ?_⟩
      simp only [argmaxOpen, hmax]
      have ha2 : isOpenFor tid a = false := by
        cases hb : isOpenFor tid a with
        | false => rfl
        | true => exact absurd hb ha
      simp [ha2]

/-- C2 as stated is false when a task has more than one open record:
check_timeout delegates the close to complete_task, which always closes
the most recently started open record, not the timed-out one it iterated
over.  With an effective timeout of 5 at time 10, a record started at 0
(elapsed 10 > 5) stays open while the record started at 8 (elapsed 2 ≤ 5)
is closed as a failure. -/
theorem check_timeout_cex :
    ((checkTimeout 10 99 ⟨"t", true, some 5, Except.ok ()⟩
        [⟨"t", 1, 0, none, none⟩, ⟨"t", 2, 8, none, none⟩]).2 =
      [⟨"t", 1, 0, none, none⟩, ⟨"t", 2, 8, some 10, some false⟩]) ∧
    ((10 : Int) - 8 ≤ 5) ∧ ((10 : Int) - 0 > 5) := by
  decide

/-- C2 (amended): when the task has exactly one open execution record,
check_timeout closes it as a failure precisely when its elapsed time
(now minus start_time) exceeds the effective timeout (the task override,
or the configured default when the task has none), and leaves the store
untouched when the elapsed time is at most the effective timeout. -/
theorem check_timeout_single_open (now dT : Int) (task : Task)
    (s : List Record) (r : Record)
    (h : s.filter (isOpenFor task.task_id) = [r]) :
    ∃ j, s.get? j = some r ∧
      checkTimeout now dT task s =
        if now - r.start_time > effectiveTimeout dT task
        then (none, s.set j (closeRecord r now false))
        else (none, s) := by
  obtain ⟨j, hget, hmax⟩ := argmaxOpen_of_filter_singleton _ _ _ h
  refine ⟨j, hget, ?_⟩
  unfold checkTimeout
  rw [h]
  by_cases hc : now - r.start_time > effectiveTimeout dT task
  · rw [if_pos hc]
    have hcomp := completeTask_of_argmax now task.task_id
      (some (timeoutExtra (now - r.start_time))) s j r (by rfl) hmax
    have hflag : completedSuccessfully
        (some (timeoutExtra (now - r.start_time))) = false := by
      simp [completedSuccessfully, timeoutExtra]
    rw [hflag] at hcomp
    simp only [checkTimeoutAux]
    rw [if_pos hc]
    simp [hcomp, checkTimeoutAux]
  · rw [if_neg hc]
    simp only [checkTimeoutAux]
    rw [if_neg hc]

/-- Witness for C2 on a store with exactly one (timed-out) open record. -/
theorem check_timeout_single_open_witness :
    checkTimeout 10 99 ⟨"t", true, some 5, Except.ok ()⟩
        [⟨"t", 1, 0, none, none⟩] =
      (none, [⟨"t", 1, 0, some 10, some false⟩]) := by
  obtain ⟨j, hget, heq⟩ := check_timeout_single_open 10 99
    ⟨"t", true, some 5, Except.ok ()⟩ [⟨"t", 1, 0, none, none⟩]
    ⟨"t", 1, 0, none, none⟩ rfl
  have hj : j = 0 := by
    cases j with
    | zero => rfl
    | succ n => simp at hget
  subst hj
  rw [if_pos (by norm_num [effectiveTimeout])] at heq
  simpa [closeRecord] using heq

/-! ### Claim C7 -/

theorem runTask_length (now : Int) (task : Task) (schedHash : Nat)
    (s : List Record) :
    (runTask now task schedHash s).2.length = s.length + 1 := by
  cases hrun : task.runResult with
  | error msg =>
    simp only [runTask, hrun, Option.isSome_some, Bool.true_or, if_true]
    rw [completeTask_length]
    simp
  | ok u =>
    cases hbl : task.is_blocking with
    | true =>
      simp only [runTask, hrun, hbl, Option.isSome_none, Bool.false_or,
        if_true]
      rw [completeTask_length]
      simp
    | false =>
      simp only [runTask, hrun, hbl, Option.isSome_none, Bool.false_or,
        Bool.false_eq_true, if_false]
      simp

theorem openCount_append (tid : String) (s t : List Record) :
    openCount tid (s ++ t) = openCount tid s + openCount tid t := by
  simp [openCount, List.countP_append]

theorem runTask_err_none (now : Int) (task : Task) (schedHash : Nat)
    (s : List Record) : (runTask now task schedHash s).1 = none := by
  have hopen : openCount task.task_id (s ++
      [(⟨task.task_id, schedHash, now, none, none⟩ : Record)]) ≠ 0 := by
    rw [openCount_append]
    have : openCount task.task_id
        [(⟨task.task_id, schedHash, now, none, none⟩ : Record)] = 1 := by
      simp [openCount, isOpenFor]
    omega
  cases hrun : task.runResult with
  | error msg =>
    simp only [runTask, hrun, Option.isSome_some, Bool.true_or, if_true]
    exact completeTask_err_none _ _ _ _ (by rfl) hopen
  | ok u =>
    cases hbl : task.is_blocking with
    | true =>
      simp only [runTask, hrun, hbl, Option.isSome_none, Bool.false_or,
        if_true]
      exact completeTask_err_none _ _ _ _ (by rfl) hopen
    | false =>
      simp only [runTask, hrun, hbl, Option.isSome_none, Bool.false_or,
        Bool.false_eq_true, if_false]

theorem checkTimeoutAux_ok (now dT : Int) (task : Task)
    (snap s : List Record)
    (h : snap.length ≤ openCount task.task_id s) :
    (checkTimeoutAux now dT task snap s).1 = none ∧
    (checkTimeoutAux now dT task snap s).2.length = s.length := by
  induction snap generalizing s with
  | nil => simp [checkTimeoutAux]
  | cons a rest ih =>
    simp only [checkTimeoutAux]
    by_cases hc : now - a.start_time > effectiveTimeout dT task
    · rw [if_pos hc]
      simp only [List.length_cons] at h
      have hne : openCount task.task_id s ≠ 0 := by omega
      have herr := completeTask_err_none now task.task_id
        (some (timeoutExtra (now - a.start_time))) s (by rfl) hne
      have hcount := completeTask_openCount now task.task_id
        (some (timeoutExtra (now - a.start_time))) s herr
      have hlen := completeTask_length now task.task_id
        (some (timeoutExtra (now - a.start_time))) s
      cases he : (completeTask now task.task_id
          (some (timeoutExtra (now - a.start_time))) s).1 with
      | some e =>
        rw [he] at herr
        exact Option.noConfusion herr
      | none =>
        have hrest : rest.length ≤ openCount task.task_id
            (completeTask now task.task_id
              (some (timeoutExtra (now - a.start_time))) s).2 := by
          omega
        obtain ⟨ih1, ih2⟩ := ih _ hrest
        exact ⟨ih1, by rw [ih2, hlen]⟩
    · rw [if_neg hc]
      exact ih s (le_trans (by simp) h)

theorem checkTimeout_ok (now dT : Int) (task : Task) (s : List Record) :
    (checkTimeout now dT task s).1 = none ∧
    (checkTimeout now dT task s).2.length = s.length := by
  apply checkTimeoutAux_ok
  exact le_of_eq (s.countP_eq_length_filter (isOpenFor task.task_id)).symm

theorem scheduleLoop_spec (now : Int) (gnrt : Nat → Task → Int)
    (task : Task) (scheds : List Nat) (s : List Record) :
    (scheduleLoop now gnrt task scheds s).1 = none ∧
    (scheduleLoop now gnrt task scheds s).2.length =
      s.length + scheds.countP (fun sch => decide (gnrt sch task ≤ now)) := by
  induction scheds generalizing s with
  | nil => simp [scheduleLoop]
  | cons a rest ih =>
    simp only [scheduleLoop]
    by_cases hdue : gnrt a task ≤ now
    · rw [if_pos hdue]
      have herr := runTask_err_none now task a s
      cases he : (runTask now task a s).1 with
      | some e =>
        rw [he] at herr
        exact Option.noConfusion herr
      | none =>
        obtain ⟨ih1, ih2⟩ := ih ((runTask now task a s).2)
        refine ⟨ih1, ?_⟩
        rw [ih2, runTask_length]
        simp only [List.countP_cons, hdue, decide_True, if_true]
        omega
    · rw [if_neg hdue]
      obtain ⟨ih1, ih2⟩ := ih s
      refine ⟨ih1, ?_⟩
      rw [ih2]
      have hfalse : decide (gnrt a task ≤ now) = false := by
        simpa using hdue
      simp [List.countP_cons, hfalse]

theorem processTask_spec (now dT : Int) (gnrt : Nat → Task → Int)
    (task : Task) (schedules : List Nat) (s : List Record) :
    (processTask now dT gnrt task schedules s).1 = none ∧
    (processTask now dT gnrt task schedules s).2.length =
      s.length + schedules.countP (fun sch => decide (gnrt sch task ≤ now)) := by
  obtain ⟨h1, h2⟩ := checkTimeout_ok now dT task s
  simp only [processTask]
  cases he : (checkTimeout now dT task s).1 with
  | some e =>
    rw [he] at h1
    exact Option.noConfusion h1
  | none =>
    obtain ⟨g1, g2⟩ := scheduleLoop_spec now gnrt task schedules
      ((checkTimeout now dT task s).2)
    exact ⟨g1, by rw [g2, h2]⟩

/-- C7: a single run pass over a registry entry holding the task and its
schedule set raises nothing and appends exactly one new execution record
per schedule whose next run time is at or before now — a task with n due
schedules is executed n times, with no deduplication across simultaneously
due schedules. -/
theorem run_pass_once_per_due_schedule (now dT : Int)
    (gnrt : Nat → Task → Int) (task : Task) (schedules : List Nat)
    (s : List Record) :
    (runScheduledTasksAux now dT gnrt [⟨some task, schedules⟩] s).1 =
      none ∧
    (runScheduledTasksAux now dT gnrt [⟨some task, schedules⟩] s).2.length =
      s.length + schedules.countP (fun sch => decide (gnrt sch task ≤ now)) := by
  obtain ⟨h1, h2⟩ := processTask_spec now dT gnrt task schedules s
  simp only [runScheduledTasksAux]
  cases he : (processTask now dT gnrt task schedules s).1 with
  | some e =>
    rw [he] at h1
    exact Option.noConfusion h1
  | none =>
    simp only [runScheduledTasksAux]
    exact ⟨trivial, h2⟩

end Periodically
